import Mathlib

/-!
Shallow embedding of the job-lifecycle and result-translation core of the
`QuantinuumBackend` adapter (file
`src/pytket/extensions/quantinuum/backends/quantinuum.py`).

Python dictionaries used as JSON request/response bodies are modelled as
association lists of `String × JVal`, keeping Python's `dict.update`
observable semantics (later layer wins on key conflicts).  Network calls are
modelled as oracles passed in explicitly (the outcome the remote API would
return), and each performed call is recorded in an event trace, so that
"zero network calls" and "exactly one status poll" claims are statements
about the trace.  Exceptions are modelled with `Except`.

External collaborators that are not part of this repository (the pytket
`Backend` base class, `circuit_to_qasm_str`, `prepare_circuit`, the
`QuantinuumAPI` session object) appear as function parameters or oracles;
the circuit representation is reduced to the observables this core reads
(qubit count, classical-bit count, name).
-/

namespace Quantinuum

/-- JSON-style values appearing in request/response bodies. -/
inductive JVal where
  | null
  | bool (b : Bool)
  | nat (n : Nat)
  | str (s : String)
  | dict (entries : List (String × JVal))

/-- Association-list dictionary over string keys. -/
abbrev JDict := List (String × JVal)

/-- Lookup of a key in a dictionary (first occurrence wins, as in Python). -/
def dlookup (d : JDict) (k : String) : Option JVal :=
  (d.find? (fun p => p.1 == k)).map Prod.snd

/-- Python `d.update(e)`: values of keys present in `e` replace those in `d`
(in place, keeping `d`'s key order), and keys new to `d` are appended in
`e`'s order. -/
def dictUpdate (d e : JDict) : JDict :=
  d.map (fun p => match dlookup e p.1 with | some v => (p.1, v) | none => p)
    ++ e.filter (fun p => (dlookup d p.1).isNone)

/-- Python `d[k] = v`: replaces the value at `k` when present, appends
otherwise. -/
def setKey (d : JDict) (k : String) (v : JVal) : JDict :=
  if (dlookup d k).isSome then
    d.map (fun p => if p.1 = k then (k, v) else p)
  else d ++ [(k, v)]

/-- Python truthiness of a JSON value, used by `misc.get(..., False)` checks. -/
def jTruthy : JVal → Bool
  | .null => false
  | .bool b => b
  | .nat n => decide (n ≠ 0)
  | .str s => decide (s ≠ "")
  | .dict d => !d.isEmpty

/-- Canonical status vocabulary (`pytket.backends.StatusEnum` members used by
this adapter). -/
inductive StatusEnum where
  | queued
  | running
  | completed
  | error
  | cancelled
deriving DecidableEq, Repr

/-- Remote-to-canonical status mapping `_STATUS_MAP` (quantinuum.py lines
71-78); a Python `dict` lookup, so undefined keys are a lookup error,
modelled by `none`. -/
def statusMap (s : String) : Option StatusEnum :=
  if s = "queued" then some .queued
  else if s = "running" then some .running
  else if s = "completed" then some .completed
  else if s = "failed" then some .error
  else if s = "canceling" then some .cancelled
  else if s = "canceled" then some .cancelled
  else none

/-- Message dictionary attached to a parsed status (keys taken with
`response.get(k, None)`), kept structured instead of JSON-serialized. -/
abbrev MsgDict := List (String × Option JVal)

/-- A `pytket.backends.CircuitStatus`: canonical status plus optional
message dictionary (`none` models the default empty message). -/
structure CStatus where
  status : StatusEnum
  message : Option MsgDict := none

/-- Observables of a compiled pytket circuit that this core reads. -/
structure Circuit where
  nQubits : Nat
  nBits : Nat
  name : Option String := none
deriving DecidableEq, Repr

/-- Job identifier stored in a result handle.  `debugId n s` models the
synthetic string `_MACHINE_DEBUG_(n, s)` produced in debug mode (the
`_DEBUG_HANDLE_PREFIX` marker followed by the literal tuple of qubit count
and shot count); `real` models every other job-id string returned by the
remote service. -/
inductive JobId where
  | debugId (nQubits nShots : Nat)
  | real (s : String)
deriving DecidableEq, Repr

/-- Whether `str(handle[0]).startswith(_DEBUG_HANDLE_PREFIX)` holds. -/
def JobId.beginsWithDebugMarker : JobId → Bool
  | .debugId _ _ => true
  | .real _ => false

/-- A `ResultHandle`: the remote job id plus the deserialized optional
post-processing circuit (the second slot holds its JSON text in the source;
`none` models the `"null"` serialization). -/
structure ResultHandle where
  jobId : JobId
  ppcirc : Option Circuit := none
deriving DecidableEq, Repr

/-- Device descriptor part used by this core: the free-form capability map
`BackendInfo.misc`. -/
structure BackendInfoRec where
  misc : JDict

/-- Instance-level backend configuration (constructor state of
`QuantinuumBackend`).  `backendInfo` is the resolved device descriptor:
`none` both before a fetch and always in debug mode (the `backend_info`
property never fetches when `_MACHINE_DEBUG` is set). -/
structure BackendConfig where
  deviceName : String
  label : String
  simulatorType : String
  group : Option String := none
  machineDebug : Bool := false
  processCircuitsOptions : JDict := []
  backendInfo : Option BackendInfoRec := none

/-- A remote job record as returned by `retrieve_job`/`retrieve_job_status`:
the `status` string, the optional `results` payload (register name mapped to
a list of bit-character strings), and the optional message fields read by
`_parse_status`. -/
structure JobRecord where
  status : String
  results : Option (List (String × List String)) := none
  name : Option JVal := none
  submitDate : Option JVal := none
  resultDate : Option JVal := none
  queuePosition : Option JVal := none
  cost : Option JVal := none
  error : Option JVal := none

/-- Exceptions raised by this core (and the external ones it propagates). -/
inductive GrfReason where
  | badStatus (st : StatusEnum)
  | missingResults

inductive Err where
  | apiError (msg : String)
  | runtimeErr (msg : String)
  | keyErr (key : String)
  | valueErr (msg : String)
  | getResultFailed (reason : GrfReason)
  | maxShotsExceeded (msg : String)
  | batchingUnsupported
  | wasmUnsupported (msg : String)
  | connectionErr (msg : String)

/-- Whether an error is the `GetResultFailed` exception class. -/
def Err.isGetResultFailed : Err → Bool
  | .getResultFailed _ => true
  | _ => false

/-- Network calls performed, in order. -/
inductive Event where
  | submitJob (body : JDict)
  | statusQuery (jobid : JobId)
  | loginCall

/-- Message-field dictionary built by `_parse_status` (lines 943-953). -/
def msgDict (r : JobRecord) : MsgDict :=
  [("name", r.name), ("submit-date", r.submitDate), ("result-date", r.resultDate),
   ("queue-position", r.queuePosition), ("cost", r.cost), ("error", r.error)]

/-- The function `_parse_status` (lines 941-955): `_STATUS_MAP[h_status]` is
a plain dict lookup, so an unknown status string is an uncaught `KeyError`. -/
def parseStatus (r : JobRecord) : Except Err CStatus :=
  match statusMap r.status with
  | none => .error (.keyErr r.status)
  | some st => .ok ⟨st, some (msgDict r)⟩

/-- Numeric value of a bit character, as produced by
`np.array([list(a) for a in reslist]).astype(np.uint8)`. -/
def charBit (c : Char) : Nat := c.toNat - 48

/-- One decoded shot row of one register: the bit characters of the string
in order (first character first). -/
def rowBits (s : String) : List Nat := s.toList.map charBit

/-- Lexicographic code-point order on strings (Python `<` on `str`),
kernel-reducible. -/
def listLtChars : List Char → List Char → Bool
  | [], [] => false
  | [], _ :: _ => true
  | _ :: _, [] => false
  | a :: as, b :: bs =>
    if a.toNat < b.toNat then true
    else if b.toNat < a.toNat then false
    else listLtChars as bs

def strLt (a b : String) : Bool := listLtChars a.toList b.toList

/-- Insert into a descending-sorted list (helper for `sorted(-, reverse=True)`). -/
def insertDesc (x : String) : List String → List String
  | [] => [x]
  | y :: ys => if strLt y x then x :: y :: ys else y :: insertDesc x ys

/-- Python `sorted(keys, reverse=True)`. -/
def sortDesc (l : List String) : List String := l.foldr insertDesc []

/-- Width of a register's bit array, `array_dict[name].shape[-1]`: the length
of the first row string (all rows are equal length for a well-formed
payload; an empty row list gives width 0). -/
def regWidth (rows : List String) : Nat := ((rows.head?).map String.length).getD 0

/-- Rows recorded under a register name in the results payload. -/
def lookupRows (d : List (String × List String)) (n : String) : List String :=
  ((d.find? (fun p => p.1 == n)).map Prod.snd).getD []

/-- Row-wise concatenation of matrices, `np.hstack` (defined for matrices
with equal row counts, which well-formed payloads guarantee). -/
def hstack : List (List (List Nat)) → List (List Nat)
  | [] => []
  | [m] => m
  | m :: ms => List.zipWith (· ++ ·) m (hstack ms)

/-- Decoded backend result: the classical-bit column labels, the shot table
(rows of bits), and the optional post-processing circuit. -/
structure BackendResult where
  cBits : List (String × Nat)
  shots : List (List Nat)
  ppcirc : Option Circuit := none

/-- The function `_convert_result` (lines 919-938): register names are
sorted in reverse order; column labels run through each register's bit
indices from width-1 down to 0; the raw bit columns of the registers are
horizontally stacked in the same reverse name order. -/
def convertResult (resultdict : List (String × List String))
    (ppcirc : Option Circuit := none) : BackendResult :=
  let names := sortDesc (resultdict.map Prod.fst)
  let cBits := names.flatMap
    (fun n => ((List.range (regWidth (lookupRows resultdict n))).reverse).map
      (fun i => (n, i)))
  let stacked := hstack (names.map (fun n => (lookupRows resultdict n).map rowBits))
  ⟨cBits, stacked, ppcirc⟩

/-- Python `a or b` on optional strings (`None` and `""` are falsy). -/
def pyOrOpt (a b : Option String) : Option String :=
  match a with
  | some s => if s = "" then b else some s
  | none => b

/-- The seeded `options` sub-dictionary of the request body (lines 504-513):
simulator, no-opt, error-model and the tket dictionary (carrying the
serialized pass when one is supplied). -/
def submitBaseOptions (cfg : BackendConfig) (noisySimulation : Bool)
    (pytketPass : Option JVal) (noOpt : Bool) : JDict :=
  let tket : JDict :=
    match pytketPass with
    | some p => [("compilation-pass", p)]
    | none => []
  [("simulator", .str cfg.simulatorType), ("no-opt", .bool noOpt),
   ("error-model", .bool noisySimulation), ("tket", .dict tket)]

/-- The `options` sub-dictionary after the two updates of lines 524-526:
the seeded options updated with the instance-level options and then with
the call-level `options` argument. -/
def submitFinalOptions (cfg : BackendConfig) (noisySimulation : Bool)
    (pytketPass : Option JVal) (noOpt : Bool) (options : JDict) : JDict :=
  dictUpdate (dictUpdate (submitBaseOptions cfg noisySimulation pytketPass noOpt)
    cfg.processCircuitsOptions) options

/-- The fixed body fields of lines 497-522 (before the option updates):
name, count, machine, language, program, priority, the seeded options, and
the optional `group` and `cfl` entries. -/
def submitBodyFixed (cfg : BackendConfig) (qasm : String) (nShots : Nat)
    (name : Option String) (noisySimulation : Bool) (group : Option String)
    (wasmEncoded : Option String) (pytketPass : Option JVal) (noOpt : Bool) : JDict :=
  let body0 : JDict :=
    [("name", .str ((pyOrOpt name (some cfg.label)).getD cfg.label)),
     ("count", .nat nShots),
     ("machine", .str cfg.deviceName), ("language", .str "OPENQASM 2.0"),
     ("program", .str qasm), ("priority", .str "normal"),
     ("options", .dict (submitBaseOptions cfg noisySimulation pytketPass noOpt))]
  let body1 :=
    match pyOrOpt group cfg.group with
    | some g => setKey body0 "group" (.str g)
    | none => body0
  match wasmEncoded with
  | some w => setKey body1 "cfl" (.str w)
  | none => body1

/-- The job-submission request body built by `submit_qasm` (lines 497-529):
the fixed fields with the `options` entry replaced by the fully merged
options dictionary, and finally the call-level `request_options` applied as
a top-level body update. -/
def submitQasmBody (cfg : BackendConfig) (qasm : String) (nShots : Nat)
    (name : Option String) (noisySimulation : Bool) (group : Option String)
    (wasmEncoded : Option String) (pytketPass : Option JVal) (noOpt : Bool)
    (options : JDict) (requestOptions : JDict) : JDict :=
  dictUpdate
    (setKey
      (submitBodyFixed cfg qasm nShots name noisySimulation group wasmEncoded
        pytketPass noOpt)
      "options"
      (.dict (submitFinalOptions cfg noisySimulation pytketPass noOpt options)))
    requestOptions

/-- The method `submit_qasm` (lines 450-547): WASM-support pre-flight check,
body construction, then the network POST.  The submission outcome
(`api_handler._submit_job` plus the HTTP-status/JSON unpacking, an external
session collaborator) is supplied as the oracle `resp`: `.ok jid` is a
successful response carrying the job id, `.error` a raised
connection/HTTP-level failure; the offline-session variant of the API
handler is outside this model.  A raised `ConnectionError` is re-raised
with the instance label prepended. -/
def submitQasm (cfg : BackendConfig) (qasm : String) (nShots : Nat)
    (name : Option String) (noisySimulation : Bool) (group : Option String)
    (wasmEncoded : Option String) (pytketPass : Option JVal) (noOpt : Bool)
    (options : JDict) (requestOptions : JDict)
    (resp : Except Err String) : Except Err ResultHandle × List Event :=
  if wasmEncoded.isSome
      && (match cfg.backendInfo with
          | some info => !jTruthy ((dlookup info.misc "wasm").getD (.bool false))
          | none => false) then
    (.error (.wasmUnsupported "Backend does not support wasm calls."), [])
  else
    let body := submitQasmBody cfg qasm nShots name noisySimulation group
      wasmEncoded pytketPass noOpt options requestOptions
    match resp with
    | .error (.connectionErr _) =>
        (.error (.connectionErr (cfg.label ++ " Connection Error: Error during submit...")),
         [.submitJob body])
    | .error e => (.error e, [.submitJob body])
    | .ok jid => (.ok ⟨.real jid, none⟩, [.submitJob body])

/-- Result cache: handle to an entry; `none` is a seeded-but-empty entry
(the Python `dict()` without a `"result"` key), `some res` a populated one. -/
abbrev Cache := List (ResultHandle × Option BackendResult)

/-- Lookup of a cache entry (outer `none`: handle unknown). -/
def cacheLookup (cache : Cache) (h : ResultHandle) : Option (Option BackendResult) :=
  (cache.find? (fun p => decide (p.1 = h))).map Prod.snd

/-- Python `self._cache[handle] = v`. -/
def cacheSet (cache : Cache) (h : ResultHandle) (v : Option BackendResult) : Cache :=
  if (cacheLookup cache h).isSome then
    cache.map (fun p => if p.1 = h then (h, v) else p)
  else cache ++ [(h, v)]

/-- The method `_update_cache_result` (lines 739-745): update the entry's
`"result"` field when the handle is cached, create the entry otherwise. -/
def updateCacheResult (cache : Cache) (h : ResultHandle) (res : BackendResult) : Cache :=
  if (cacheLookup cache h).isSome then
    cache.map (fun p => if p.1 = h then (h, some res) else p)
  else cache ++ [(h, some res)]

/-- Keyword arguments accepted by `process_circuits`, with their source
defaults (`wasmFileHandler` stands for the encoded WASM module text the
handler would contribute; `pytketPass` for the serialized pass). -/
structure PCKwargs where
  postprocess : Bool := false
  noisySimulation : Bool := true
  group : Option String := none
  wasmFileHandler : Option String := none
  pytketPass : Option JVal := none
  noOpt : Bool := false
  options : JDict := []
  requestOptions : JDict := []

/-- Python `circ.name or None`. -/
def circNameArg (c : Circuit) : Option String :=
  match c.name with
  | some n => if n = "" then none else some n
  | none => none

/-- Maximum-shots limit drawn from the capability map (line 600):
`self.backend_info.misc.get("n_shots") if self.backend_info else None`.
Only absent-or-integer capability values are modelled (any other value
would make Python's `>` comparison fail). -/
def maxShotsOf (cfg : BackendConfig) : Option Nat :=
  match cfg.backendInfo with
  | some info =>
    match dlookup info.misc "n_shots" with
    | some (.nat m) => some m
    | _ => none
  | none => none

/-- Message of the `MaxShotsExceeded` exception (lines 603-605). -/
def maxShotsMsg (nShots maxShots : Nat) : String :=
  s!"Number of shots {nShots} exceeds maximum {maxShots}"

/-- Returns the violated limit when `n_shots > max_shots` (line 602). -/
def shotsViolation (maxShots : Option Nat) (nShots : Nat) : Option Nat :=
  match maxShots with
  | some m => if m < nShots then some m else none
  | none => none

/-- The per-circuit loop of `process_circuits` (lines 601-640): max-shots
pre-flight check, optional contextual-postprocessing split (the external
`prepare_circuit`, supplied as `prep`), QASM serialization (the external
`circuit_to_qasm_str`, supplied as `toQasm`), then either a synthetic
debug handle (no network, no cache entry) or a real submission through
`submit_qasm` followed by seeding an empty cache entry.  `resp i` is the
network outcome of the i-th submission of the call. -/
def processCircuitsAux (cfg : BackendConfig) (toQasm : Circuit → String)
    (prep : Circuit → Circuit × Circuit) (kw : PCKwargs)
    (maxShots : Option Nat) (resp : Nat → Except Err String) :
    List (Circuit × Nat) → Nat → Cache →
      Except Err (List ResultHandle) × List Event × Cache
  | [], _, cache => (.ok [], [], cache)
  | (c, s) :: rest, i, cache =>
    match shotsViolation maxShots s with
    | some m => (.error (.maxShotsExceeded (maxShotsMsg s m)), [], cache)
    | none =>
      let pp := if kw.postprocess then some (prep c).2 else none
      let c0 := if kw.postprocess then (prep c).1 else c
      let qasm := toQasm c0
      if cfg.machineDebug then
        let h : ResultHandle := ⟨.debugId c.nQubits s, pp⟩
        match processCircuitsAux cfg toQasm prep kw maxShots resp rest i cache with
        | (.ok hs, evs, cache2) => (.ok (h :: hs), evs, cache2)
        | (.error e, evs, cache2) => (.error e, evs, cache2)
      else
        match submitQasm cfg qasm s (circNameArg c) kw.noisySimulation kw.group
          kw.wasmFileHandler kw.pytketPass kw.noOpt kw.options kw.requestOptions
          (resp i) with
        | (.error e, evs) => (.error e, evs, cache)
        | (.ok h0, evs) =>
          let h : ResultHandle := ⟨h0.jobId, pp⟩
          let cache2 := cacheSet cache h none
          match processCircuitsAux cfg toQasm prep kw maxShots resp rest (i + 1) cache2 with
          | (.ok hs, evs2, cache3) => (.ok (h :: hs), evs ++ evs2, cache3)
          | (.error e, evs2, cache3) => (.error e, evs ++ evs2, cache3)

/-- The method `process_circuits` (lines 549-640) after shot-list
normalization and the optional predicate validation of the external base
class, which are outside this model: `circsShots` pairs each circuit with
its shot count. -/
def processCircuits (cfg : BackendConfig) (toQasm : Circuit → String)
    (prep : Circuit → Circuit × Circuit) (resp : Nat → Except Err String)
    (circsShots : List (Circuit × Nat)) (kw : PCKwargs) (cache : Cache) :
    Except Err (List ResultHandle) × List Event × Cache :=
  processCircuitsAux cfg toQasm prep kw (maxShotsOf cfg) resp circsShots 0 cache

/-- Shared tail of `circuit_status` (lines 766-778): `None` responses are a
`RuntimeError`, the parsed status is returned, and a COMPLETED response
carrying a `results` payload eagerly decodes it into the cache. -/
def statusProceed (h : ResultHandle) (respRec : Option JobRecord)
    (evs : List Event) (cache : Cache) :
    Except Err CStatus × List Event × Cache :=
  match respRec with
  | none => (.error (.runtimeErr "Unable to retrieve circuit status"), evs, cache)
  | some jr =>
    match parseStatus jr with
    | .error e => (.error e, evs, cache)
    | .ok cst =>
      let cache2 :=
        if cst.status = .completed then
          match jr.results with
          | some res => updateCacheResult cache h (convertResult res h.ppcirc)
          | none => cache
        else cache
      (.ok cst, evs, cache2)

/-- The method `circuit_status` (lines 747-778).  Debug-marker handles (or
debug mode) short-circuit to COMPLETED with no network call.  Otherwise the
status query runs (`q1` is its outcome); a raised `QuantinuumAPIError` is
caught once, `login()` re-authenticates and the query is retried (`q2`),
whose failure propagates uncaught. -/
def circuitStatus (cfg : BackendConfig) (h : ResultHandle)
    (q1 q2 : Except Err (Option JobRecord)) (cache : Cache) :
    Except Err CStatus × List Event × Cache :=
  if cfg.machineDebug || h.jobId.beginsWithDebugMarker then
    (.ok ⟨.completed, none⟩, [], cache)
  else
    match q1 with
    | .ok jr => statusProceed h jr [.statusQuery h.jobId] cache
    | .error (.apiError _) =>
      match q2 with
      | .ok jr =>
        statusProceed h jr [.statusQuery h.jobId, .loginCall, .statusQuery h.jobId] cache
      | .error e2 =>
        (.error e2, [.statusQuery h.jobId, .loginCall, .statusQuery h.jobId], cache)
    | .error e => (.error e, [.statusQuery h.jobId], cache)

/-- All-zero readout string of one debug shot, `"0" * n_qubits`. -/
def zeroRow (nQubits : Nat) : String := String.mk (List.replicate nQubits '0')

/-- The method `get_result` (lines 780-818).  The cached branch models the
external base-class `get_result`, which returns the populated cache entry
and raises `CircuitNotRunError` otherwise, caught here.  Debug-marker
handles synthesize an all-zero payload sized from the embedded
(qubit count, shot count) with no network call.  Otherwise `_retrieve_job`
runs (outcome supplied as the oracle `retrieved`; `.ok none` models a
`None` job dictionary), the terminal status gates the decode, and the
decoded result is written back to the cache. -/
def getResult (cfg : BackendConfig) (h : ResultHandle)
    (retrieved : Except Err (Option JobRecord)) (cache : Cache) :
    Except Err (BackendResult × Cache) × List Event :=
  match cacheLookup cache h with
  | some (some res) => (.ok (res, cache), [])
  | _ =>
    if cfg.machineDebug || h.jobId.beginsWithDebugMarker then
      match h.jobId with
      | .debugId nq ns =>
        (.ok (convertResult [("c", List.replicate ns (zeroRow nq))] h.ppcirc, cache), [])
      | .real s => (.error (.valueErr s), [])
    else
      match retrieved with
      | .error e => (.error e, [.statusQuery h.jobId])
      | .ok none => (.error (.runtimeErr "Unable to retrieve job"), [.statusQuery h.jobId])
      | .ok (some jr) =>
        match parseStatus jr with
        | .error e => (.error e, [.statusQuery h.jobId])
        | .ok cst =>
          if cst.status = .completed ∨ cst.status = .cancelled then
            match jr.results with
            | none =>
              (.error (.getResultFailed .missingResults), [.statusQuery h.jobId])
            | some res =>
              let backres := convertResult res h.ppcirc
              (.ok (backres, updateCacheResult cache h backres), [.statusQuery h.jobId])
          else
            (.error (.getResultFailed (.badStatus cst.status)), [.statusQuery h.jobId])

/-- The method `_check_batchable` (lines 642-645): raises
`BatchingUnsupported` only when a device descriptor is present and its
capability map's `batching` entry is not truthy; with no descriptor
(debug mode) the check passes. -/
def checkBatchable (info? : Option BackendInfoRec) : Except Err Unit :=
  match info? with
  | some info =>
    if jTruthy ((dlookup info.misc "batching").getD (.bool false)) then .ok ()
    else .error .batchingUnsupported
  | none => .ok ()

/-- Job-id text, `str(handle[0])` (a `debugId` prints as the marker string). -/
def jobIdText : JobId → String
  | .debugId n k => "_MACHINE_DEBUG_" ++ s!"({n}, {k})"
  | .real s => s

/-- The method `start_batch` (lines 647-680): batching pre-flight check,
`request_options` forced to the batch-cost ceiling, one-circuit submission
through `process_circuits`, then one immediate status poll on the returned
handle (outcome `pollResp`, value discarded, exceptions propagating) before
the handle is returned. -/
def startBatch (cfg : BackendConfig) (toQasm : Circuit → String)
    (prep : Circuit → Circuit × Circuit) (resp : Nat → Except Err String)
    (pollResp : Except Err (Option JobRecord)) (maxBatchCost : Nat)
    (circuit : Circuit) (nShots : Nat) (kw : PCKwargs) (cache : Cache) :
    Except Err ResultHandle × List Event × Cache :=
  match checkBatchable cfg.backendInfo with
  | .error e => (.error e, [], cache)
  | .ok _ =>
    let kw2 := { kw with requestOptions := [("batch-exec", .nat maxBatchCost)] }
    match processCircuits cfg toQasm prep resp [(circuit, nShots)] kw2 cache with
    | (.error e, evs, cache2) => (.error e, evs, cache2)
    | (.ok hs, evs, cache2) =>
      match hs with
      | [h1] =>
        match pollResp with
        | .error e => (.error e, evs ++ [.statusQuery h1.jobId], cache2)
        | .ok _ => (.ok h1, evs ++ [.statusQuery h1.jobId], cache2)
      | _ => (.error (.valueErr "expected a single handle"), evs, cache2)

/-- The method `add_to_batch` (lines 682-715): batching pre-flight check,
`request_options` forced to the batch-head job id as linking key plus the
end-of-batch marker when `batchEnd` is set, then a one-circuit submission. -/
def addToBatch (cfg : BackendConfig) (toQasm : Circuit → String)
    (prep : Circuit → Circuit × Circuit) (resp : Nat → Except Err String)
    (batchStartJob : ResultHandle) (circuit : Circuit) (nShots : Nat)
    (batchEnd : Bool) (kw : PCKwargs) (cache : Cache) :
    Except Err ResultHandle × List Event × Cache :=
  match checkBatchable cfg.backendInfo with
  | .error e => (.error e, [], cache)
  | .ok _ =>
    let reqOpt : JDict :=
      if batchEnd then
        [("batch-exec", .str (jobIdText batchStartJob.jobId)), ("batch-end", .bool true)]
      else
        [("batch-exec", .str (jobIdText batchStartJob.jobId))]
    let kw2 := { kw with requestOptions := reqOpt }
    match processCircuits cfg toQasm prep resp [(circuit, nShots)] kw2 cache with
    | (.error e, evs, cache2) => (.error e, evs, cache2)
    | (.ok hs, evs, cache2) =>
      match hs with
      | h :: _ => (.ok h, evs, cache2)
      | [] => (.error (.valueErr "expected a handle"), evs, cache2)

/-- Debug-mode backend instance used in concrete examples (mirrors
`QuantinuumBackend("H1-1SC", machine_debug=True)` with constructor
defaults). -/
def debugConfig : BackendConfig :=
  { deviceName := "H1-1SC", label := "job", simulatorType := "state-vector",
    machineDebug := true }

/-- Online backend instance used in concrete examples. -/
def onlineConfig (misc : JDict) : BackendConfig :=
  { deviceName := "H1-1", label := "job", simulatorType := "state-vector",
    machineDebug := false, backendInfo := some ⟨misc⟩ }

section DictLemmas

theorem find?_filter_congr {α : Type} (pred g₁ g₂ : α → Bool) (l : List α)
    (hg : ∀ a ∈ l, pred a = true → g₁ a = g₂ a) :
    (l.filter g₁).find? pred = (l.filter g₂).find? pred := by
  induction l with
  | nil => rfl
  | cons a l ih =>
    have ih' := ih (fun b hb hp => hg b (List.mem_cons_of_mem a hb) hp)
    by_cases hpa : pred a = true
    · have hga : g₁ a = g₂ a := hg a (List.mem_cons_self a l) hpa
      cases hga2 : g₂ a with
      | true =>
        simp [List.filter_cons, hga, hga2, List.find?, hpa]
      | false =>
        simp [List.filter_cons, hga, hga2, ih']
    · have hpa' : pred a = false := by
        cases hpab : pred a
        · rfl
        · exact absurd hpab hpa
      cases hg1 : g₁ a <;> cases hg2 : g₂ a <;>
        simp [List.filter_cons, hg1, hg2, List.find?, hpa', ih']

theorem dlookup_cons (x : String × JVal) (xs : JDict) (k : String) :
    dlookup (x :: xs) k = if (x.1 == k) = true then some x.2 else dlookup xs k := by
  by_cases hx : (x.1 == k) = true <;> simp [dlookup, List.find?_cons, hx]

theorem dlookup_append (xs ys : JDict) (k : String) :
    dlookup (xs ++ ys) k = (dlookup xs k).or (dlookup ys k) := by
  unfold dlookup
  rw [List.find?_append]
  cases List.find? (fun p => p.1 == k) xs <;> simp

theorem dlookup_dictUpdate (d e : JDict) (k : String) :
    dlookup (dictUpdate d e) k = (dlookup e k).or (dlookup d k) := by
  induction d with
  | nil =>
    have hfilter : (e.filter fun p => (dlookup ([] : JDict) p.1).isNone) = e := by
      simp [dlookup]
    simp only [dictUpdate, List.map_nil, List.nil_append, hfilter]
    cases dlookup e k <;> simp [dlookup]
  | cons p d ih =>
    have hfp : ((match dlookup e p.1 with
        | some v => (p.1, v)
        | none => p) : String × JVal).1 = p.1 := by
      cases dlookup e p.1 <;> rfl
    by_cases hk : (p.1 == k) = true
    · have hk' : p.1 = k := beq_iff_eq.mp hk
      subst hk'
      simp only [dictUpdate, List.map_cons, List.cons_append]
      rw [dlookup_cons, dlookup_cons, hfp]
      cases he : dlookup e p.1 <;> simp [he]
    · have hkf : (p.1 == k) = false := by
        cases h2 : (p.1 == k)
        · rfl
        · exact absurd h2 hk
      simp only [dictUpdate, List.map_cons, List.cons_append]
      rw [dlookup_cons, hfp, hkf]
      simp only [Bool.false_eq_true, if_false]
      rw [dlookup_append]
      have hfeq : dlookup (e.filter fun q => (dlookup (p :: d) q.1).isNone) k
          = dlookup (e.filter fun q => (dlookup d q.1).isNone) k := by
        refine congrArg (Option.map Prod.snd)
          (find?_filter_congr _ _ _ e (fun q hq hpq => ?_))
        have hq1 : q.1 = k := beq_iff_eq.mp hpq
        rw [hq1, dlookup_cons, hkf]
        simp
      rw [hfeq, ← dlookup_append]
      show dlookup (dictUpdate d e) k = _
      rw [ih, dlookup_cons, hkf]
      simp

theorem dlookup_mapSet (d : JDict) (k : String) (v : JVal)
    (hd : (dlookup d k).isSome = true) :
    dlookup (d.map (fun p => if p.1 = k then (k, v) else p)) k = some v := by
  induction d with
  | nil => simp [dlookup] at hd
  | cons p d ih =>
    by_cases hp : p.1 = k
    · simp [dlookup, List.find?, hp]
    · have hpb : (p.1 == k) = false := by
        cases hpb2 : (p.1 == k)
        · rfl
        · exact absurd (beq_iff_eq.mp hpb2) hp
      have hd' : (dlookup d k).isSome = true := by
        simpa [dlookup, List.find?, hpb] using hd
      simpa [dlookup, List.find?, hp, hpb] using ih hd'

theorem dlookup_of_find?_none (d : JDict) (k : String)
    (hd : (dlookup d k).isSome = false) :
    d.find? (fun p => p.1 == k) = none := by
  cases hf : d.find? (fun p => p.1 == k) with
  | none => rfl
  | some q => simp [dlookup, hf] at hd

theorem dlookup_setKey_self (d : JDict) (k : String) (v : JVal) :
    dlookup (setKey d k v) k = some v := by
  by_cases hd : (dlookup d k).isSome = true
  · simp only [setKey, hd, if_true]
    exact dlookup_mapSet d k v hd
  · have hd' : (dlookup d k).isSome = false := by
      cases hd2 : (dlookup d k).isSome
      · rfl
      · exact absurd hd2 hd
    simp only [setKey, hd', Bool.false_eq_true, if_false]
    rw [dlookup, List.find?_append, dlookup_of_find?_none d k hd']
    simp [List.find?]

end DictLemmas

section CacheLemmas

theorem cacheLookup_mapSet (cache : Cache) (h : ResultHandle) (v : Option BackendResult)
    (hc : (cacheLookup cache h).isSome = true) :
    cacheLookup (cache.map (fun p => if p.1 = h then (h, v) else p)) h = some v := by
  induction cache with
  | nil => simp [cacheLookup] at hc
  | cons p cs ih =>
    by_cases hp : p.1 = h
    · simp [cacheLookup, List.find?, hp]
    · have hc' : (cacheLookup cs h).isSome = true := by
        simpa [cacheLookup, List.find?, hp] using hc
      simpa [cacheLookup, List.find?, hp] using ih hc'

theorem cacheLookup_of_find?_none (cache : Cache) (h : ResultHandle)
    (hc : (cacheLookup cache h).isSome = false) :
    cache.find? (fun p => decide (p.1 = h)) = none := by
  cases hf : cache.find? (fun p => decide (p.1 = h)) with
  | none => rfl
  | some q => simp [cacheLookup, hf] at hc

theorem cacheLookup_updateCacheResult (cache : Cache) (h : ResultHandle)
    (res : BackendResult) :
    cacheLookup (updateCacheResult cache h res) h = some (some res) := by
  by_cases hc : (cacheLookup cache h).isSome = true
  · simp only [updateCacheResult, hc, if_true]
    exact cacheLookup_mapSet cache h (some res) hc
  · have hc' : (cacheLookup cache h).isSome = false := by
      cases hc2 : (cacheLookup cache h).isSome
      · rfl
      · exact absurd hc2 hc
    simp only [updateCacheResult, hc', Bool.false_eq_true, if_false]
    rw [cacheLookup, List.find?_append, cacheLookup_of_find?_none cache h hc']
    simp [List.find?]

end CacheLemmas

section ConvertLemmas

theorem perm_insertDesc (x : String) (l : List String) :
    List.Perm (insertDesc x l) (x :: l) := by
  induction l with
  | nil => exact List.Perm.refl _
  | cons y ys ih =>
    by_cases h : strLt y x = true
    · rw [show insertDesc x (y :: ys) = if strLt y x = true then x :: y :: ys
        else y :: insertDesc x ys from rfl, if_pos h]
    · rw [show insertDesc x (y :: ys) = if strLt y x = true then x :: y :: ys
        else y :: insertDesc x ys from rfl, if_neg h]
      exact (ih.cons y).trans (List.Perm.swap x y ys)

theorem perm_sortDesc (l : List String) : List.Perm (sortDesc l) l := by
  induction l with
  | nil => exact List.Perm.refl _
  | cons a l ih =>
    rw [show sortDesc (a :: l) = insertDesc a (sortDesc l) from rfl]
    exact (perm_insertDesc a (sortDesc l)).trans (ih.cons a)

theorem mem_sortDesc (n : String) (l : List String) : n ∈ sortDesc l ↔ n ∈ l :=
  (perm_sortDesc l).mem_iff

theorem sortDesc_ne_nil (l : List String) (hl : l ≠ []) : sortDesc l ≠ [] := by
  intro hs
  have := (perm_sortDesc l).length_eq
  rw [hs] at this
  exact hl (List.eq_nil_of_length_eq_zero this.symm)

theorem lookupRows_of_mem (d : List (String × List String))
    (hnd : (d.map Prod.fst).Nodup) (p : String × List String) (hp : p ∈ d) :
    lookupRows d p.1 = p.2 := by
  induction d with
  | nil => cases hp
  | cons q d ih =>
    rcases List.mem_cons.mp hp with hq | hd'
    · subst hq
      simp [lookupRows, List.find?_cons]
    · have hne : q.1 ≠ p.1 := by
        intro he
        have hpm : p.1 ∈ d.map Prod.fst := List.mem_map_of_mem Prod.fst hd'
        exact (List.nodup_cons.mp hnd).1 (he ▸ hpm)
      have hqp : (q.1 == p.1) = false := beq_eq_false_iff_ne.mpr hne
      have := ih (List.nodup_cons.mp hnd).2 hd'
      simpa [lookupRows, List.find?_cons, hqp] using this

theorem exists_lookupRows (d : List (String × List String))
    (hnd : (d.map Prod.fst).Nodup) (n : String) (hn : n ∈ d.map Prod.fst) :
    ∃ rows, (n, rows) ∈ d ∧ lookupRows d n = rows := by
  rcases List.mem_map.mp hn with ⟨p, hp, hpn⟩
  refine ⟨p.2, ?_, ?_⟩
  · rw [← hpn]
    exact hp
  · rw [← hpn]
    exact lookupRows_of_mem d hnd p hp

theorem length_rowBits (s : String) : (rowBits s).length = s.length := by
  rw [rowBits, List.length_map]
  rfl

theorem hstack_length (mats : List (List (List Nat))) (s : Nat) (hne : mats ≠ [])
    (hlen : ∀ m ∈ mats, m.length = s) : (hstack mats).length = s := by
  induction mats with
  | nil => exact absurd rfl hne
  | cons m ms ih =>
    cases ms with
    | nil => simpa [hstack] using hlen m (List.mem_cons_self _ _)
    | cons m2 ms2 =>
      have h1 : (hstack (m2 :: ms2)).length = s :=
        ih (List.cons_ne_nil _ _) (fun mm hm => hlen mm (List.mem_cons_of_mem _ hm))
      have h2 : m.length = s := hlen m (List.mem_cons_self _ _)
      rw [show hstack (m :: m2 :: ms2)
        = List.zipWith (· ++ ·) m (hstack (m2 :: ms2)) from rfl]
      rw [List.length_zipWith, h1, h2, min_self]

theorem hstack_getElem (mats : List (List (List Nat))) (s j : Nat) (hne : mats ≠ [])
    (hlen : ∀ m ∈ mats, m.length = s) (hj : j < s) :
    (hstack mats)[j]? = some (mats.flatMap (fun m => (m[j]?).getD [])) := by
  induction mats with
  | nil => exact absurd rfl hne
  | cons m ms ih =>
    have hm : m.length = s := hlen m (List.mem_cons_self _ _)
    have hjm : j < m.length := hm ▸ hj
    cases ms with
    | nil =>
      rw [show hstack [m] = m from rfl, List.getElem?_eq_getElem hjm]
      simp [List.flatMap_cons, List.getElem?_eq_getElem hjm]
    | cons m2 ms2 =>
      have hrest := ih (List.cons_ne_nil _ _)
        (fun mm hmm => hlen mm (List.mem_cons_of_mem _ hmm))
      have hrl : (hstack (m2 :: ms2)).length = s :=
        hstack_length _ s (List.cons_ne_nil _ _)
          (fun mm hmm => hlen mm (List.mem_cons_of_mem _ hmm))
      rw [show hstack (m :: m2 :: ms2)
        = List.zipWith (· ++ ·) m (hstack (m2 :: ms2)) from rfl]
      rw [List.getElem?_zipWith, List.getElem?_eq_getElem hjm, hrest]
      simp [List.flatMap_cons, List.getElem?_eq_getElem hjm]

theorem flatMap_congr_over {α β : Type} (l : List α) (f g : α → List β)
    (h : ∀ a ∈ l, f a = g a) : l.flatMap f = l.flatMap g := by
  induction l with
  | nil => rfl
  | cons a l ih =>
    rw [List.flatMap_cons, List.flatMap_cons, h a (List.mem_cons_self _ _),
      ih (fun b hb => h b (List.mem_cons_of_mem _ hb))]

end ConvertLemmas

/-- C1: for every results payload with distinct register names, a common
row count `s > 0` and all of register `n`'s bit strings of width `w n`,
the decoded table labels its columns by register name in descending order
with bit indices descending (most-significant-bit-first) within each
register, has `s` rows, each row being the concatenation of the registers'
decoded rows in descending name order, and every row's length equals the
sum of the register widths; in particular registers `a` (2 bits) and
`b` (3 bits) decode with column order b[2],b[1],b[0],a[1],a[0]. -/
theorem C1_shot_table_ordering
    (d : List (String × List String)) (pp : Option Circuit)
    (s : Nat) (w : String → Nat)
    (hne : d ≠ [])
    (hnd : (d.map Prod.fst).Nodup)
    (hs : 0 < s)
    (hrows : ∀ p ∈ d, (p.2 : List String).length = s)
    (hwidth : ∀ p ∈ d, ∀ r ∈ p.2, r.length = w p.1) :
    (convertResult d pp).cBits
        = (sortDesc (d.map Prod.fst)).flatMap
            (fun n => ((List.range (w n)).reverse).map (fun i => (n, i)))
      ∧ (convertResult d pp).shots.length = s
      ∧ (∀ j, j < s → (convertResult d pp).shots[j]?
          = some ((sortDesc (d.map Prod.fst)).flatMap
              (fun n => rowBits ((lookupRows d n).getD j ""))))
      ∧ (∀ row ∈ (convertResult d pp).shots,
          row.length = (d.map (fun p => w p.1)).sum)
      ∧ (convertResult [("a", ["01", "10"]), ("b", ["110", "001"])] none).cBits
          = [("b", 2), ("b", 1), ("b", 0), ("a", 1), ("a", 0)]
      ∧ (convertResult [("a", ["01", "10"]), ("b", ["110", "001"])] none).shots
          = [[1, 1, 0, 0, 1], [0, 0, 1, 1, 0]] := by
  have hcb : (convertResult d pp).cBits
      = (sortDesc (d.map Prod.fst)).flatMap
          (fun n => ((List.range (regWidth (lookupRows d n))).reverse).map
            (fun i => (n, i))) := rfl
  have hsh : (convertResult d pp).shots
      = hstack ((sortDesc (d.map Prod.fst)).map
          (fun n => (lookupRows d n).map rowBits)) := rfl
  have hmemkeys : ∀ n ∈ sortDesc (d.map Prod.fst), n ∈ d.map Prod.fst :=
    fun n hn => (mem_sortDesc n _).mp hn
  have hreg : ∀ n ∈ sortDesc (d.map Prod.fst),
      (lookupRows d n).length = s ∧ (∀ r ∈ lookupRows d n, r.length = w n) := by
    intro n hn
    rcases exists_lookupRows d hnd n (hmemkeys n hn) with ⟨rows, hmem, hlk⟩
    refine ⟨?_, ?_⟩
    · rw [hlk]
      exact hrows (n, rows) hmem
    · intro r hr
      rw [hlk] at hr
      exact hwidth (n, rows) hmem r hr
  have hregw : ∀ n ∈ sortDesc (d.map Prod.fst),
      regWidth (lookupRows d n) = w n := by
    intro n hn
    rcases hreg n hn with ⟨hlen, hwid⟩
    cases hrw : lookupRows d n with
    | nil =>
      rw [hrw] at hlen
      simp at hlen
      omega
    | cons r rs =>
      have hr : r ∈ lookupRows d n := by
        rw [hrw]
        exact List.mem_cons_self _ _
      rw [show regWidth (r :: rs) = r.length from rfl]
      exact hwid r hr
  have hkeysne : d.map Prod.fst ≠ [] := by
    intro hme
    exact hne (List.map_eq_nil_iff.mp hme)
  have hmatsne : (sortDesc (d.map Prod.fst)).map
      (fun n => (lookupRows d n).map rowBits) ≠ [] := by
    intro hmn
    exact (sortDesc_ne_nil _ hkeysne) (List.map_eq_nil_iff.mp hmn)
  have hmats : ∀ m ∈ (sortDesc (d.map Prod.fst)).map
      (fun n => (lookupRows d n).map rowBits), m.length = s := by
    intro m hm
    rcases List.mem_map.mp hm with ⟨n, hn, hmn⟩
    rw [← hmn, List.length_map]
    exact (hreg n hn).1
  have hlen2 : (convertResult d pp).shots.length = s := by
    rw [hsh]
    exact hstack_length _ s hmatsne hmats
  have hget : ∀ j, j < s → (convertResult d pp).shots[j]?
      = some ((sortDesc (d.map Prod.fst)).flatMap
          (fun n => rowBits ((lookupRows d n).getD j ""))) := by
    intro j hj
    rw [hsh, hstack_getElem _ s j hmatsne hmats hj]
    congr 1
    rw [List.flatMap_map]
    refine flatMap_congr_over _ _ _ (fun n hn => ?_)
    have hlj : j < (lookupRows d n).length := by
      rw [(hreg n hn).1]
      exact hj
    simp [List.getElem?_map, List.getElem?_eq_getElem hlj, List.getD_eq_getElem?_getD]
  refine ⟨?_, hlen2, hget, ?_, by decide, by decide⟩
  · rw [hcb]
    exact flatMap_congr_over _ _ _ (fun n hn => by rw [hregw n hn])
  · intro row hrow
    rcases List.mem_iff_getElem?.mp hrow with ⟨i, hi⟩
    have hilen : i < (convertResult d pp).shots.length := by
      rw [List.getElem?_eq_some] at hi
      exact hi.1
    rw [hlen2] at hilen
    have hgi := hget i hilen
    rw [hgi] at hi
    have hroweq : row = (sortDesc (d.map Prod.fst)).flatMap
        (fun n => rowBits ((lookupRows d n).getD i "")) :=
      (Option.some.inj hi).symm
    rw [hroweq, List.length_flatMap]
    have hpt : ∀ n ∈ sortDesc (d.map Prod.fst),
        (List.length ∘ (fun n => rowBits ((lookupRows d n).getD i ""))) n = w n := by
      intro n hn
      have hlj : i < (lookupRows d n).length := by
        rw [(hreg n hn).1]
        exact hilen
      have hmemr : (lookupRows d n).getD i "" ∈ lookupRows d n := by
        rw [List.getD_eq_getElem?_getD, List.getElem?_eq_getElem hlj, Option.getD_some]
        exact List.getElem_mem hlj
      show (rowBits ((lookupRows d n).getD i "")).length = w n
      rw [length_rowBits]
      exact (hreg n hn).2 _ hmemr
    rw [List.map_congr_left hpt, ((perm_sortDesc (d.map Prod.fst)).map w).sum_eq,
      List.map_map]
    rfl

/-- Witness for C1: the two-register example payload decodes to a table
with two rows of length five. -/
theorem C1_shot_table_ordering_witness :
    (convertResult [("a", ["01", "10"]), ("b", ["110", "001"])] none).shots.length = 2
      ∧ ∀ row ∈ (convertResult [("a", ["01", "10"]), ("b", ["110", "001"])] none).shots,
          row.length = ([("a", ["01", "10"]), ("b", ["110", "001"])].map
            (fun p => (if p.1 = "a" then 2 else 3 : Nat))).sum := by
  have h := C1_shot_table_ordering [("a", ["01", "10"]), ("b", ["110", "001"])] none 2
    (fun n => if n = "a" then 2 else 3) (by decide) (by decide) (by decide)
    (by decide) (by decide)
  exact ⟨h.2.1, h.2.2.2.1⟩

theorem rowBits_zeroRow (n : Nat) : rowBits (zeroRow n) = List.replicate n 0 := by
  show (List.replicate n '0').map charBit = List.replicate n 0
  rw [List.map_replicate]
  rfl

theorem convertResult_zero_shots (nq s : Nat) :
    (convertResult [("c", List.replicate s (zeroRow nq))] none).shots
      = List.replicate s (List.replicate nq 0) := by
  show (List.replicate s (zeroRow nq)).map rowBits
      = List.replicate s (List.replicate nq 0)
  rw [List.map_replicate, rowBits_zeroRow]

/-- C2 (amended): a debug-mode submission of a circuit with `s` shots
returns a synthetic handle without touching the cache or the network, and
fetching that handle's result (when not already cached) performs no network
access and returns a shot table of `s` rows, each row of length equal to
the circuit's QUBIT count, with every entry zero.  (The column count is the
qubit count encoded in the debug handle, not the declared classical-bit
count.) -/
theorem C2_debug_result_shape (cfg : BackendConfig) (toQasm : Circuit → String)
    (prep : Circuit → Circuit × Circuit) (resp : Nat → Except Err String)
    (c : Circuit) (s : Nat) (kw : PCKwargs) (cache : Cache)
    (hdbg : cfg.machineDebug = true)
    (hinfo : cfg.backendInfo = none)
    (hpp : kw.postprocess = false)
    (hcache : ∀ r, cacheLookup cache ⟨.debugId c.nQubits s, none⟩ ≠ some (some r)) :
    processCircuits cfg toQasm prep resp [(c, s)] kw cache
        = (.ok [⟨.debugId c.nQubits s, none⟩], [], cache)
      ∧ ∀ retrieved,
          getResult cfg ⟨.debugId c.nQubits s, none⟩ retrieved cache
            = (.ok (convertResult [("c", List.replicate s (zeroRow c.nQubits))] none,
                cache), [])
          ∧ (convertResult [("c", List.replicate s (zeroRow c.nQubits))] none).shots
              = List.replicate s (List.replicate c.nQubits 0) := by
  constructor
  · simp [processCircuits, processCircuitsAux, maxShotsOf, hinfo, shotsViolation,
      hdbg, hpp]
  · intro retrieved
    refine ⟨?_, convertResult_zero_shots c.nQubits s⟩
    have hdm : (cfg.machineDebug
        || (JobId.debugId c.nQubits s).beginsWithDebugMarker) = true := by
      rw [hdbg]
      rfl
    cases hc : cacheLookup cache ⟨.debugId c.nQubits s, none⟩ with
    | none => simp [getResult, hc, hdm]
    | some o =>
      cases o with
      | none => simp [getResult, hc, hdm]
      | some r => exact absurd hc (hcache r)

/-- Witness for C2 (amended): a concrete debug submission of a 2-qubit
circuit with 3 shots decodes to three all-zero rows of length 2. -/
theorem C2_debug_result_shape_witness :
    processCircuits debugConfig (fun _ => "") (fun c => (c, c)) (fun _ => .ok "")
        [({ nQubits := 2, nBits := 2 }, 3)] {} []
        = (.ok [⟨.debugId 2 3, none⟩], [], [])
      ∧ (convertResult [("c", List.replicate 3 (zeroRow 2))] none).shots
          = List.replicate 3 (List.replicate 2 0) := by
  have h := C2_debug_result_shape debugConfig (fun _ => "") (fun c => (c, c))
    (fun _ => .ok "") { nQubits := 2, nBits := 2 } 3 {} [] rfl rfl rfl
    (fun r hr => by simp [cacheLookup] at hr)
  exact ⟨h.1, (h.2 (.ok none)).2⟩

/-- Counterexample for C2 as stated: a debug submission of a circuit with
2 qubits and 3 declared classical bits yields rows of length 2 (the qubit
count), not 3 (the declared classical-bit count). -/
theorem C2_counterexample :
    processCircuits debugConfig (fun _ => "") (fun c => (c, c)) (fun _ => .ok "")
        [({ nQubits := 2, nBits := 3 }, 1)] {} []
        = (.ok [⟨.debugId 2 1, none⟩], [], [])
      ∧ (getResult debugConfig ⟨.debugId 2 1, none⟩ (.ok none) []).1
          = .ok (convertResult [("c", List.replicate 1 (zeroRow 2))] none, [])
      ∧ (convertResult [("c", List.replicate 1 (zeroRow 2))] none).shots = [[0, 0]]
      ∧ ({ nQubits := 2, nBits := 3 } : Circuit).nBits = 3
      ∧ ¬ (∀ row ∈ (convertResult [("c", List.replicate 1 (zeroRow 2))] none).shots,
            row.length = ({ nQubits := 2, nBits := 3 } : Circuit).nBits) := by
  refine ⟨rfl, rfl, by decide, rfl, ?_⟩
  intro hcl
  exact absurd (hcl [0, 0] (by decide)) (by decide)

/-- C7: in debug mode, or for any handle whose job id begins with the
debug-marker string, polling the status returns COMPLETED immediately,
performs no network call (empty event trace) and leaves the cache
untouched. -/
theorem C7_debug_status_completed (cfg : BackendConfig) (h : ResultHandle)
    (q1 q2 : Except Err (Option JobRecord)) (cache : Cache)
    (hdbg : cfg.machineDebug = true ∨ h.jobId.beginsWithDebugMarker = true) :
    circuitStatus cfg h q1 q2 cache = (.ok ⟨.completed, none⟩, [], cache) := by
  rcases hdbg with hd | hd <;> simp [circuitStatus, hd]

/-- Witness for C7 at a concrete debug-marker handle. -/
theorem C7_debug_status_completed_witness :
    circuitStatus debugConfig ⟨.debugId 1 1, none⟩ (.ok none) (.ok none) []
      = (.ok ⟨.completed, none⟩, [], []) :=
  C7_debug_status_completed debugConfig ⟨.debugId 1 1, none⟩ (.ok none) (.ok none) []
    (Or.inl rfl)

/-- C9: with no device descriptor the batching pre-flight check passes, and
with a descriptor it raises `BatchingUnsupported` exactly when the
capability map's `batching` entry is not truthy. -/
theorem C9_batching_check :
    checkBatchable none = .ok ()
      ∧ ∀ info : BackendInfoRec,
          (checkBatchable (some info) = .error .batchingUnsupported
            ↔ jTruthy ((dlookup info.misc "batching").getD (.bool false)) = false) := by
  refine ⟨rfl, fun info => ?_⟩
  by_cases hb : jTruthy ((dlookup info.misc "batching").getD (.bool false)) = true
  · simp [checkBatchable, hb]
  · have hb' : jTruthy ((dlookup info.misc "batching").getD (.bool false)) = false := by
      cases h2 : jTruthy ((dlookup info.misc "batching").getD (.bool false))
      · rfl
      · exact absurd h2 hb
    simp [checkBatchable, hb']

/-- Witness for C9: a capability map with no `batching` entry fails the
check, and the absent-descriptor case passes it. -/
theorem C9_batching_check_witness :
    checkBatchable none = .ok ()
      ∧ checkBatchable (some ⟨[("wasm", .bool true)]⟩) = .error .batchingUnsupported := by
  refine ⟨C9_batching_check.1, (C9_batching_check.2 ⟨[("wasm", .bool true)]⟩).mpr ?_⟩
  decide

/-- C10: the remote-to-canonical status mapping is defined exactly on the
six remote strings, maps both canceling and canceled to CANCELLED, and
parsing a response with any other status string is an uncaught lookup
error, not a canonical status. -/
theorem C10_status_map :
    (∀ s, (statusMap s).isSome = true
        ↔ (s = "queued" ∨ s = "running" ∨ s = "completed" ∨ s = "failed"
            ∨ s = "canceling" ∨ s = "canceled"))
      ∧ statusMap "canceling" = some .cancelled
      ∧ statusMap "canceled" = some .cancelled
      ∧ ∀ jr : JobRecord, statusMap jr.status = none
          → parseStatus jr = .error (.keyErr jr.status) := by
  refine ⟨fun s => ?_, rfl, rfl, fun jr hjr => ?_⟩
  · unfold statusMap
    split_ifs with h1 h2 h3 h4 h5 h6 <;> simp_all
  · unfold parseStatus
    rw [hjr]

/-- Witness for C10: the unknown status string "deleted" parses to a lookup
error. -/
theorem C10_status_map_witness :
    parseStatus { status := "deleted" } = .error (.keyErr "deleted") :=
  C10_status_map.2.2.2 { status := "deleted" } rfl

/-- C3: for a non-debug handle whose result is not yet cached, fetching the
result raises `GetResultFailed` exactly when the retrieved job's canonical
status is neither COMPLETED nor CANCELLED or the job record carries no
results payload; otherwise the decoded result is returned and stored in the
cache. -/
theorem C3_get_result_failure (cfg : BackendConfig) (h : ResultHandle)
    (jid : String) (jr : JobRecord) (cache : Cache) (st : StatusEnum)
    (hdbg : cfg.machineDebug = false)
    (hjid : h.jobId = .real jid)
    (hcache : cacheLookup cache h = none ∨ cacheLookup cache h = some none)
    (hst : statusMap jr.status = some st) :
    ((∃ e, (getResult cfg h (.ok (some jr)) cache).1 = .error e
          ∧ e.isGetResultFailed = true)
        ↔ ((st ≠ .completed ∧ st ≠ .cancelled) ∨ jr.results = none))
      ∧ ∀ res, jr.results = some res → (st = .completed ∨ st = .cancelled) →
          getResult cfg h (.ok (some jr)) cache
              = (.ok (convertResult res h.ppcirc,
                  updateCacheResult cache h (convertResult res h.ppcirc)),
                 [.statusQuery h.jobId])
            ∧ cacheLookup (updateCacheResult cache h (convertResult res h.ppcirc)) h
                = some (some (convertResult res h.ppcirc)) := by
  by_cases hterm : st = .completed ∨ st = .cancelled
  · cases hres : jr.results with
    | some res0 =>
      have hval : getResult cfg h (.ok (some jr)) cache
          = (.ok (convertResult res0 h.ppcirc,
              updateCacheResult cache h (convertResult res0 h.ppcirc)),
             [.statusQuery h.jobId]) := by
        rcases hcache with hc | hc <;>
          simp [getResult, hc, hjid, JobId.beginsWithDebugMarker, hdbg,
            parseStatus, hst, hterm, hres]
      constructor
      · constructor
        · rintro ⟨e, he, -⟩
          rw [hval] at he
          cases he
        · intro hrhs
          rcases hrhs with hteq | hnone
          · rcases hterm with h1 | h1
            · exact absurd h1 hteq.1
            · exact absurd h1 hteq.2
          · cases hnone
      · intro res hres2 _
        injection hres2 with hinj
        subst hinj
        exact ⟨hval, cacheLookup_updateCacheResult cache h _⟩
    | none =>
      have hval : getResult cfg h (.ok (some jr)) cache
          = (.error (.getResultFailed .missingResults), [.statusQuery h.jobId]) := by
        rcases hcache with hc | hc <;>
          simp [getResult, hc, hjid, JobId.beginsWithDebugMarker, hdbg,
            parseStatus, hst, hterm, hres]
      constructor
      · constructor
        · intro _
          exact Or.inr rfl
        · intro _
          exact ⟨.getResultFailed .missingResults, by rw [hval], rfl⟩
      · intro res hres2 _
        cases hres2
  · have hval : getResult cfg h (.ok (some jr)) cache
        = (.error (.getResultFailed (.badStatus st)), [.statusQuery h.jobId]) := by
      rcases hcache with hc | hc <;>
        simp [getResult, hc, hjid, JobId.beginsWithDebugMarker, hdbg,
          parseStatus, hst, hterm]
    constructor
    · constructor
      · intro _
        left
        push_neg at hterm
        exact hterm
      · intro _
        exact ⟨.getResultFailed (.badStatus st), by rw [hval], rfl⟩
    · intro res hres2 hterm2
      exact absurd hterm2 hterm

/-- Witness for C3: a COMPLETED record with a results payload decodes,
returns and caches the result. -/
theorem C3_get_result_failure_witness :
    getResult (onlineConfig []) ⟨.real "abc", none⟩
        (.ok (some { status := "completed", results := some [("c", ["0"])] })) []
      = (.ok (convertResult [("c", ["0"])] none,
          updateCacheResult [] ⟨.real "abc", none⟩ (convertResult [("c", ["0"])] none)),
         [.statusQuery (.real "abc")]) := by
  have h := C3_get_result_failure (onlineConfig []) ⟨.real "abc", none⟩ "abc"
    { status := "completed", results := some [("c", ["0"])] } [] .completed
    rfl rfl (Or.inl rfl) rfl
  exact (h.2 [("c", ["0"])] rfl (Or.inl rfl)).1

theorem statusProceed_events (h : ResultHandle) (respRec : Option JobRecord)
    (evs : List Event) (cache : Cache) :
    (statusProceed h respRec evs cache).2.1 = evs := by
  cases respRec with
  | none => rfl
  | some jr =>
    cases hps : parseStatus jr with
    | error e => simp [statusProceed, hps]
    | ok cst => simp [statusProceed, hps]

/-- C4: on a first status query failing with the authentication-class API
error, the poll performs exactly one re-authentication and exactly one
retried query — the trace is query, login, query — and a failure of the
retried query propagates to the caller. -/
theorem C4_auth_retry_once (cfg : BackendConfig) (h : ResultHandle) (jid : String)
    (m : String) (q2 : Except Err (Option JobRecord)) (cache : Cache)
    (hdbg : cfg.machineDebug = false)
    (hjid : h.jobId = .real jid) :
    (circuitStatus cfg h (.error (.apiError m)) q2 cache).2.1
        = [.statusQuery (.real jid), .loginCall, .statusQuery (.real jid)]
      ∧ ∀ e2, q2 = .error e2 →
          (circuitStatus cfg h (.error (.apiError m)) q2 cache).1 = .error e2 := by
  constructor
  · cases q2 with
    | ok jr =>
      have hval : circuitStatus cfg h (.error (.apiError m)) (.ok jr) cache
          = statusProceed h jr
              [.statusQuery h.jobId, .loginCall, .statusQuery h.jobId] cache := by
        simp [circuitStatus, hdbg, hjid, JobId.beginsWithDebugMarker]
      rw [hval, statusProceed_events, hjid]
    | error e2 => simp [circuitStatus, hdbg, hjid, JobId.beginsWithDebugMarker]
  · intro e2 he2
    subst he2
    simp [circuitStatus, hdbg, hjid, JobId.beginsWithDebugMarker]

/-- Witness for C4: two consecutive API errors produce the
query-login-query trace and propagate the second error. -/
theorem C4_auth_retry_once_witness :
    (circuitStatus (onlineConfig []) ⟨.real "j1", none⟩ (.error (.apiError "401"))
        (.error (.apiError "again")) []).2.1
      = [.statusQuery (.real "j1"), .loginCall, .statusQuery (.real "j1")]
    ∧ (circuitStatus (onlineConfig []) ⟨.real "j1", none⟩ (.error (.apiError "401"))
        (.error (.apiError "again")) []).1 = .error (.apiError "again") := by
  have h := C4_auth_retry_once (onlineConfig []) ⟨.real "j1", none⟩ "j1" "401"
    (.error (.apiError "again")) [] rfl rfl
  exact ⟨h.1, h.2 _ rfl⟩

/-- C5: the request-body option dictionaries merge with fixed precedence —
any key of the call-level `request_options` wins at top level, and inside
the `options` dictionary (when not itself overridden at top level) the
call-level `options` argument wins over the instance-level options, which
win over the seeded base options. -/
theorem C5_options_precedence (cfg : BackendConfig) (qasm : String) (nShots : Nat)
    (name : Option String) (noisy : Bool) (group : Option String)
    (wasm : Option String) (pp : Option JVal) (noOpt : Bool)
    (options requestOptions : JDict) :
    (∀ k v, dlookup requestOptions k = some v →
        dlookup (submitQasmBody cfg qasm nShots name noisy group wasm pp noOpt
          options requestOptions) k = some v)
      ∧ (dlookup requestOptions "options" = none →
          dlookup (submitQasmBody cfg qasm nShots name noisy group wasm pp noOpt
              options requestOptions) "options"
            = some (.dict (submitFinalOptions cfg noisy pp noOpt options)))
      ∧ ∀ k, dlookup (submitFinalOptions cfg noisy pp noOpt options) k
          = ((dlookup options k).or ((dlookup cfg.processCircuitsOptions k).or
              (dlookup (submitBaseOptions cfg noisy pp noOpt) k))) := by
  refine ⟨fun k v hv => ?_, fun hnone => ?_, fun k => ?_⟩
  · rw [submitQasmBody, dlookup_dictUpdate, hv]
    rfl
  · rw [submitQasmBody, dlookup_dictUpdate, hnone, dlookup_setKey_self]
    rfl
  · rw [submitFinalOptions, dlookup_dictUpdate, dlookup_dictUpdate]

/-- Witness for C5: a concrete body with a call-level simulator override
and a top-level batch directive. -/
theorem C5_options_precedence_witness :
    dlookup (submitQasmBody (onlineConfig []) "prog" 10 none true none none none false
        [("simulator", .str "stabilizer")] [("batch-exec", .nat 5)]) "batch-exec"
      = some (.nat 5)
    ∧ dlookup (submitQasmBody (onlineConfig []) "prog" 10 none true none none none false
        [("simulator", .str "stabilizer")] [("batch-exec", .nat 5)]) "options"
      = some (.dict (submitFinalOptions (onlineConfig []) true none false
          [("simulator", .str "stabilizer")])) := by
  have h := C5_options_precedence (onlineConfig []) "prog" 10 none true none none none
    false [("simulator", .str "stabilizer")] [("batch-exec", .nat 5)]
  exact ⟨h.1 "batch-exec" (.nat 5) rfl, h.2.1 rfl⟩

theorem processAux_maxshots (cfg : BackendConfig) (toQasm : Circuit → String)
    (prep : Circuit → Circuit × Circuit) (kw : PCKwargs)
    (m : Nat) (resp : Nat → Except Err String)
    (c : Circuit) (s : Nat) (rest : List (Circuit × Nat))
    (hdbg : cfg.machineDebug = false)
    (hwasm : kw.wasmFileHandler = none)
    (hresp : ∀ i, ∃ j, resp i = .ok j)
    (hs : m < s) :
    ∀ pre : List (Circuit × Nat), ∀ i : Nat, ∀ cache : Cache,
      (∀ p ∈ pre, p.2 ≤ m) →
      ∃ evs cache2,
        processCircuitsAux cfg toQasm prep kw (some m) resp
            (pre ++ (c, s) :: rest) i cache
          = (.error (.maxShotsExceeded (maxShotsMsg s m)), evs, cache2)
        ∧ evs.length = pre.length
        ∧ ∀ e ∈ evs, ∃ b, e = .submitJob b := by
  intro pre
  induction pre with
  | nil =>
    intro i cache _
    refine ⟨[], cache, ?_, rfl, by simp⟩
    simp [processCircuitsAux, shotsViolation, hs]
  | cons p pre ih =>
    intro i cache hpre
    obtain ⟨c', s'⟩ := p
    have hs' : ¬ (m < s') := by
      have := hpre (c', s') (List.mem_cons_self _ _)
      simp at this
      omega
    obtain ⟨j, hj⟩ := hresp i
    obtain ⟨evs', cache2', heq, hlen, hsub⟩ :=
      ih (i + 1)
        (cacheSet cache
          ⟨.real j, if kw.postprocess = true then some (prep c').2 else none⟩ none)
        (fun q hq => hpre q (List.mem_cons_of_mem _ hq))
    refine ⟨.submitJob (submitQasmBody cfg
        (toQasm (if kw.postprocess = true then (prep c').1 else c')) s'
        (circNameArg c') kw.noisySimulation kw.group kw.wasmFileHandler
        kw.pytketPass kw.noOpt kw.options kw.requestOptions) :: evs',
      cache2', ?_, ?_, ?_⟩
    · simp only [List.cons_append]
      simp [processCircuitsAux, shotsViolation, hs', hdbg, submitQasm, hwasm,
        hj, heq]
    · simp [hlen]
    · intro e he
      rcases List.mem_cons.mp he with he1 | he2
      · exact ⟨_, he1⟩
      · exact hsub e he2

/-- C6: when the capability map declares a maximum-shots limit `m` and a
circuit in the batch requests `s > m` shots, submission fails with
`MaxShotsExceeded` and no network submission is made for that circuit —
the event trace contains exactly one submission per preceding (compliant)
circuit and nothing else. -/
theorem C6_max_shots_preflight (cfg : BackendConfig) (toQasm : Circuit → String)
    (prep : Circuit → Circuit × Circuit) (resp : Nat → Except Err String)
    (pre : List (Circuit × Nat)) (c : Circuit) (s : Nat)
    (rest : List (Circuit × Nat)) (kw : PCKwargs) (cache : Cache) (m : Nat)
    (hdbg : cfg.machineDebug = false)
    (hmax : maxShotsOf cfg = some m)
    (hwasm : kw.wasmFileHandler = none)
    (hresp : ∀ i, ∃ j, resp i = .ok j)
    (hpre : ∀ p ∈ pre, p.2 ≤ m)
    (hs : m < s) :
    ∃ evs cache2,
      processCircuits cfg toQasm prep resp (pre ++ (c, s) :: rest) kw cache
        = (.error (.maxShotsExceeded (maxShotsMsg s m)), evs, cache2)
      ∧ evs.length = pre.length
      ∧ ∀ e ∈ evs, ∃ b, e = .submitJob b := by
  have h := processAux_maxshots cfg toQasm prep kw m resp c s rest hdbg hwasm
    hresp hs pre 0 cache hpre
  rw [processCircuits, hmax]
  exact h

/-- Witness for C6: requesting 11 shots against a declared limit of 10
fails pre-flight with an empty event trace. -/
theorem C6_max_shots_preflight_witness :
    ∃ evs cache2,
      processCircuits (onlineConfig [("n_shots", .nat 10)]) (fun _ => "")
          (fun c => (c, c)) (fun _ => .ok "jid")
          ([] ++ ({ nQubits := 1, nBits := 1 }, 11) :: []) {} []
        = (.error (.maxShotsExceeded (maxShotsMsg 11 10)), evs, cache2)
      ∧ evs.length = List.length ([] : List (Circuit × Nat))
      ∧ ∀ e ∈ evs, ∃ b, e = .submitJob b :=
  C6_max_shots_preflight (onlineConfig [("n_shots", .nat 10)]) (fun _ => "")
    (fun c => (c, c)) (fun _ => .ok "jid") [] { nQubits := 1, nBits := 1 } 11 [] {} [] 10
    rfl rfl rfl (fun _ => ⟨"jid", rfl⟩) (by simp) (by omega)

/-- C8: a successful `start_batch` submits the batch-head circuit with the
batch-cost ceiling attached as the top-level `batch-exec` request option
and performs exactly one status poll on the new handle, after the
submission and before the handle is returned: the event trace is exactly
the submission followed by one status query on the returned job id. -/
theorem C8_batch_start_poll (cfg : BackendConfig) (toQasm : Circuit → String)
    (prep : Circuit → Circuit × Circuit) (resp : Nat → Except Err String)
    (pollResp : Except Err (Option JobRecord)) (cost : Nat) (circuit : Circuit)
    (nShots : Nat) (kw : PCKwargs) (cache : Cache) (jid : String)
    (jrO : Option JobRecord)
    (hdbg : cfg.machineDebug = false)
    (hbatch : checkBatchable cfg.backendInfo = .ok ())
    (hmax : shotsViolation (maxShotsOf cfg) nShots = none)
    (hwasm : kw.wasmFileHandler = none)
    (hresp : resp 0 = .ok jid)
    (hpoll : pollResp = .ok jrO) :
    ∃ body,
      startBatch cfg toQasm prep resp pollResp cost circuit nShots kw cache
        = (.ok ⟨.real jid, if kw.postprocess = true then some (prep circuit).2 else none⟩,
           [.submitJob body, .statusQuery (.real jid)],
           cacheSet cache
             ⟨.real jid, if kw.postprocess = true then some (prep circuit).2 else none⟩
             none)
      ∧ dlookup body "batch-exec" = some (.nat cost) := by
  subst hpoll
  refine ⟨submitQasmBody cfg
      (toQasm (if kw.postprocess = true then (prep circuit).1 else circuit)) nShots
      (circNameArg circuit) kw.noisySimulation kw.group kw.wasmFileHandler
      kw.pytketPass kw.noOpt kw.options [("batch-exec", .nat cost)], ?_, ?_⟩
  · simp [startBatch, hbatch, processCircuits, processCircuitsAux, hmax, hdbg,
      submitQasm, hwasm, hresp]
  · rw [submitQasmBody, dlookup_dictUpdate]
    rfl

/-- Witness for C8: a concrete batch start with cost ceiling 500 produces
the submit-then-poll trace with `batch-exec` set to 500. -/
theorem C8_batch_start_poll_witness :
    ∃ body,
      startBatch (onlineConfig [("batching", .bool true)]) (fun _ => "")
          (fun c => (c, c)) (fun _ => .ok "J") (.ok none) 500
          { nQubits := 1, nBits := 1 } 10 {} []
        = (.ok ⟨.real "J",
             if ({} : PCKwargs).postprocess = true
             then some ((fun (c : Circuit) => (c, c)) { nQubits := 1, nBits := 1 }).2
             else none⟩,
           [.submitJob body, .statusQuery (.real "J")],
           cacheSet []
             ⟨.real "J",
              if ({} : PCKwargs).postprocess = true
              then some ((fun (c : Circuit) => (c, c)) { nQubits := 1, nBits := 1 }).2
              else none⟩
             none)
      ∧ dlookup body "batch-exec" = some (.nat 500) :=
  C8_batch_start_poll (onlineConfig [("batching", .bool true)]) (fun _ => "")
    (fun c => (c, c)) (fun _ => .ok "J") (.ok none) 500 { nQubits := 1, nBits := 1 }
    10 {} [] "J" none rfl rfl rfl rfl rfl rfl

end Quantinuum
